import Mathlib

/-!
Verification of the provably-fair dice game `src/task3.js` (repository
tendernesc/Cubes).  The JavaScript source is shallowly embedded below:
pure computations become Lean functions on `Nat`/`Int`/`Rat`, the
interactive round body becomes an explicit step function that returns the
ordered list of console events it produces together with the updated
scoreboard, and the startup argument validation becomes an `Except`-valued
parser.  Machine-number behaviour (JavaScript `Number` is an IEEE-754
binary64) is modelled by an explicit round-to-53-significant-bits
function on naturals.
-/

/-- Scoreboard `this.scores = {1: 0, 2: 0}` of `DiceGame` (task3.js line 95).
Slot 1 is the user, slot 2 the computer. -/
structure Scores where
  user : Nat
  comp : Nat
  deriving DecidableEq, Repr

/-- Binary digit count with explicit fuel (structural recursion on the fuel);
`bitLenAux fuel n` is the bit length of `n` whenever `n < 2 ^ fuel`. -/
def bitLenAux : Nat → Nat → Nat
  | 0, _ => 0
  | fuel + 1, n => if n = 0 then 0 else bitLenAux fuel (n / 2) + 1

/-- Bit length of a natural number below `2 ^ 300`.  HMAC-SHA3-256 digests
are 256-bit, so the fuel of 300 covers every value this development uses. -/
def bitLen (n : Nat) : Nat := bitLenAux 300 n

/-- The exact value of a natural number after conversion to a JavaScript
`Number` (IEEE-754 binary64): numbers of at most 53 significant bits are
exact, larger ones are rounded to 53 significant bits, ties to even
mantissa.  This is what `parseInt` returns for an integer numeral
(ECMA-262 `StringToNumber`: the mathematical value, then rounding to a
`Number`). -/
def float64Round (n : Nat) : Nat :=
  if bitLen n ≤ 53 then n
  else
    let e := bitLen n - 53
    let q := n / 2 ^ e
    let r := n % 2 ^ e
    let half := 2 ^ (e - 1)
    if half < r ∨ (r = half ∧ q % 2 = 1) then (q + 1) * 2 ^ e else q * 2 ^ e

/-- Embedding of `FairRandom.generateNumber(key, range)` (task3.js lines 39-44).  The
32 random bytes and the keyed hash determine a 64-hex-digit digest string;
`digest` below is that string's integer value (an arbitrary value in
`[0, 2 ^ 256)`).  The code computes `parseInt(hmac, 16)` — which yields
the binary64 rounding of the digest's value — and then `num % range`. -/
def FairRandom.generateNumber (digest : Nat) (range : Nat) : Nat :=
  float64Round digest % range

/-- Favorable-outcome count of `ProbabilityCalculator.calculate`
(task3.js lines 49-64): the nested loops count the pairs `(i, j)` with
`config1[i] > config2[j]`. -/
def ProbabilityCalculator.favorable (config1 config2 : List Nat) : Nat :=
  (config1.map (fun a => config2.countP (fun b => decide (b < a)))).sum

/-- Total-outcome count of the same loops: one per pair, so
`config1.length * config2.length`. -/
def ProbabilityCalculator.total (config1 config2 : List Nat) : Nat :=
  config1.length * config2.length

/-- Embedding of `ProbabilityCalculator.calculate(config1, config2)`
(task3.js lines 49-64): `favorableOutcomes / totalOutcomes`, the division taken exactly
(the spec demands an exact rational result, so the embedding returns a
rational). -/
def ProbabilityCalculator.calculate (config1 config2 : List Nat) : ℚ :=
  (ProbabilityCalculator.favorable config1 config2 : ℚ) /
    (ProbabilityCalculator.total config1 config2 : ℚ)

/-- The spec's formula for `winProbability`: the number of index pairs
`(i, j)` with `A[i] > B[j]`, divided by `|A| * |B|`.  Stated over `Fin`
index pairs, independently of the loop structure of the code. -/
def specWinProbability (A B : List Nat) : ℚ :=
  ((Finset.univ.filter
      (fun p : Fin A.length × Fin B.length => B.get p.2 < A.get p.1)).card : ℚ) /
    ((A.length * B.length : Nat) : ℚ)

/-- Tie count: the number of index pairs `(i, j)` with `A[i] == B[j]`
(the spec's `tieFraction` numerator). -/
def ties (A B : List Nat) : Nat :=
  (A.map (fun a => B.countP (fun b => decide (a = b)))).sum

/-- The spec's `tieFraction(A, B)`: the fraction of index pairs `(i, j)`
with `A[i] == B[j]`. -/
def tieFraction (A B : List Nat) : ℚ :=
  (ties A B : ℚ) / (ProbabilityCalculator.total A B : ℚ)

/-- The ambient mutable program state of `task3.js`: the process-wide
entropy source consumed by `crypto.randomBytes` / `Math.random`, and the
scoreboard.  Stateful operations of the embedding receive it explicitly;
`HMACGenerator.generate` receives it and reads none of it, which is
exactly what the source method (a pure library call on `key` and `input`)
does. -/
structure Ambient where
  entropy : List Nat
  scores : Scores

/-- Embedding of `HMACGenerator.generate(key, input)` (task3.js lines 29-33):
`crypto.createHmac('sha3-256', key).update(input).digest('hex')`.  The
HMAC-SHA3-256 primitive lives in Node's `crypto` library, outside this
repository, so it is abstracted as the function argument `hmacSha3_256`;
the method applies it to exactly the pair `(key, input)`. -/
def HMACGenerator.generate (hmacSha3_256 : List Nat → List Nat → String)
    (amb : Ambient) (key input : List Nat) : String :=
  hmacSha3_256 key input

/-- One console interaction of `DiceGame.startGame` (task3.js lines
107-155), in the order the code performs it.  `showDigest` and
`revealSecret` are the commit/reveal interactions the specification's
protocol calls for; the embedding provides the constructors so that
theorems can state whether the program ever emits them.
`closeInterface code` models `rl.close()`: the readline interface closes
and the process then terminates with exit code `code` (0, Node's normal
termination). -/
inductive Ev where
  | promptMain : Ev
  | inputAccepted : String → Ev
  | outGameOver : Ev
  | closeInterface : Nat → Ev
  | outHelp : Ev
  | computeDigest : Nat → Ev
  | showDigest : Nat → Ev
  | revealSecret : Nat → Ev
  | outComputerRoll : Nat → Ev
  | outUserRoll : Nat → Ev
  | outUserWins : Ev
  | outCompWins : Ev
  | outTie : Ev
  | outScore : Nat → Nat → Ev
  | promptContinue : Ev
  deriving DecidableEq, Repr

/-- Where control goes after a console interaction: back to the main
prompt (`startGame` called again), to the continue prompt, or the game
has ended. -/
inductive Mode where
  | toMain : Mode
  | toContinue : Mode
  | ended : Mode
  deriving DecidableEq, Repr

/-- Result of one interaction step: the events it emits (prompts, accepted
input, console output), the scoreboard afterwards, and where control
goes. -/
structure StepResult where
  trace : List Ev
  scores : Scores
  mode : Mode
  deriving DecidableEq, Repr

/-- Round resolution (task3.js lines 133-142): `userRoll > compRoll`
increments the user's score, `userRoll < compRoll` the computer's, a tie
increments neither. -/
def DiceGame.resolve (userRoll compRoll : Nat) (s : Scores) : Scores :=
  if compRoll < userRoll then { s with user := s.user + 1 }
  else if userRoll < compRoll then { s with comp := s.comp + 1 }
  else s

/-- The main-prompt interaction of `DiceGame.startGame` (task3.js lines
113-144): the prompt is printed, one line `input` is accepted, and then
the callback runs.  `input === 'X'` ends the game; `'?'` or `'help'`
prints help and calls `startGame` again; every other input plays a round:
`FairRandom.generateNumber(this.hmacKey, 6)` draws the computer roll
(`digest` is the value of the HMAC digest computed inside that call, from
the fresh 32 random bytes), `Math.floor(Math.random() * 6)` draws
`userRoll`, both are printed, the winner is resolved, the score printed,
and the continue prompt issued. -/
def DiceGame.mainStep (input : String) (digest userRoll : Nat) (s : Scores) :
    StepResult :=
  if input = "X" then
    ⟨[Ev.promptMain, Ev.inputAccepted input, Ev.outGameOver, Ev.closeInterface 0],
      s, Mode.ended⟩
  else if input = "?" ∨ input = "help" then
    ⟨[Ev.promptMain, Ev.inputAccepted input, Ev.outHelp], s, Mode.toMain⟩
  else
    let compRoll := FairRandom.generateNumber digest 6
    let s2 := DiceGame.resolve userRoll compRoll s
    ⟨[Ev.promptMain, Ev.inputAccepted input, Ev.computeDigest digest,
        Ev.outComputerRoll compRoll, Ev.outUserRoll userRoll,
        if compRoll < userRoll then Ev.outUserWins
        else if userRoll < compRoll then Ev.outCompWins else Ev.outTie,
        Ev.outScore s2.user s2.comp, Ev.promptContinue],
      s2, Mode.toContinue⟩

/-- Embedding of `s.toUpperCase()` for the inputs the program compares: ASCII
uppercasing, character by character. -/
def jsToUpper (s : String) : String :=
  String.mk (s.data.map Char.toUpper)

/-- The continue-prompt interaction (task3.js lines 146-153):
`answer.toUpperCase() === 'Y'` loops back to `startGame`; anything else
prints `Game over.` and closes the interface (process exits 0). -/
def DiceGame.continueStep (answer : String) : List Ev × Mode :=
  if jsToUpper answer = "Y" then ([Ev.inputAccepted answer], Mode.toMain)
  else ([Ev.inputAccepted answer, Ev.outGameOver, Ev.closeInterface 0], Mode.ended)

/-- Scoreboard evolution over a whole session: the rolls of the successive
resolved rounds, folded through `DiceGame.resolve`. -/
def DiceGame.runRounds (rounds : List (Nat × Nat)) (s : Scores) : Scores :=
  rounds.foldl (fun acc r => DiceGame.resolve r.1 r.2 acc) s

/-- Leading/trailing-whitespace strip, as `String.prototype.trim` /
`parseInt`'s whitespace skipping perform it. -/
def trimChars (cs : List Char) : List Char :=
  (((cs.dropWhile Char.isWhitespace).reverse).dropWhile Char.isWhitespace).reverse

/-- Decimal value of a digit character. -/
def digitVal (c : Char) : Nat := c.toNat - Char.toNat '0'

/-- Embedding of `parseInt(s, 10)` (as used at task3.js line 173, on the trimmed
token): skip whitespace, read an optional sign, then the longest leading
run of decimal digits; `none` models the `NaN` result when no digit is
found, otherwise the signed value of the digit run (any trailing
non-digit characters are ignored). -/
def jsParseInt10 (s : String) : Option Int :=
  let cs := trimChars s.data
  let signAndRest : Int × List Char :=
    match cs with
    | '-' :: r => (-1, r)
    | '+' :: r => (1, r)
    | r => (1, r)
  let ds := signAndRest.2.takeWhile Char.isDigit
  if ds.isEmpty then none
  else some (signAndRest.1 * (ds.foldl (fun a c => a * 10 + digitVal c) 0 : Nat))

/-- Embedding of `config.split(',')` (task3.js line 172): split into the
(possibly empty) chunks between commas. -/
def splitOnCommaAux : List Char → List Char → List (List Char)
  | [], acc => [acc.reverse]
  | c :: cs, acc =>
    if c = ',' then acc.reverse :: splitOnCommaAux cs []
    else splitOnCommaAux cs (c :: acc)

/-- Wrapper giving `config.split(',')` as a `String` operation. -/
def splitOnComma (config : String) : List String :=
  (splitOnCommaAux config.data []).map String.mk

/-- The rejection test of task3.js line 174:
`isNaN(parsed) || parsed <= 0` for `parsed = parseInt(num.trim(), 10)`. -/
def tokenRejected (num : String) : Bool :=
  match jsParseInt10 num with
  | none => true
  | some p => p ≤ 0

/-- The error text of task3.js line 175, naming the offending token and
its configuration. -/
def invalidNumberMsg (num config : String) : String :=
  "Error: Invalid number \"" ++ num ++ "\" in configuration " ++ config ++
    ". All numbers must be positive integers."

/-- The error text of task3.js line 163. -/
def missingArgsMsg : String :=
  "Error: You must provide at least one dice configuration."

/-- A startup failure: the message written to the error stream
(`console.error`) and the exit code passed to `process.exit`. -/
structure StartupError where
  msg : String
  code : Nat
  deriving DecidableEq, Repr

/-- Validation of the tokens of one configuration (the `map` callback of
task3.js lines 172-179): tokens are checked left to right; the first
rejected token aborts with `process.exit(1)` after printing
`invalidNumberMsg`; otherwise the parsed values are collected. -/
def validateTokens (config : String) : List String → Except StartupError (List Int)
  | [] => Except.ok []
  | num :: rest =>
    match jsParseInt10 num with
    | none => Except.error ⟨invalidNumberMsg num config, 1⟩
    | some p =>
      if p ≤ 0 then Except.error ⟨invalidNumberMsg num config, 1⟩
      else (validateTokens config rest).map (fun ns => p :: ns)

/-- Validation of one configuration argument: split on commas, then check
every token. -/
def validateConfig (config : String) : Except StartupError (List Int) :=
  validateTokens config (splitOnComma config)

/-- The `args.forEach` loop of task3.js lines 170-182: configurations are
validated in order, the first failure aborts the process. -/
def validateAll : List String → Except StartupError (List (List Int))
  | [] => Except.ok []
  | config :: rest =>
    match validateConfig config with
    | Except.error e => Except.error e
    | Except.ok ns =>
      match validateAll rest with
      | Except.error e => Except.error e
      | Except.ok tl => Except.ok (ns :: tl)

/-- Startup argument handling (task3.js lines 159-182): fewer than one
argument aborts with exit code 1 and `missingArgsMsg`; otherwise every
configuration is validated.  Only a successful result carries
configurations: the `DiceGame` object is constructed (task3.js line 187)
only after this returns `ok`. -/
def parseArgs (args : List String) : Except StartupError (List (List Int)) :=
  if args.length < 1 then Except.error ⟨missingArgsMsg, 1⟩
  else validateAll args

/-- A token that textually denotes an integer: after trimming, an optional
sign followed by one or more decimal digits and nothing else.  This is the
claim's notion of a "numeric" token, used to state claim C6. -/
def tokenIsNumeric (s : String) : Bool :=
  match trimChars s.data with
  | [] => false
  | '-' :: rest => !rest.isEmpty && rest.all Char.isDigit
  | '+' :: rest => !rest.isEmpty && rest.all Char.isDigit
  | cs => cs.all Char.isDigit

theorem sum_map_get (f : Nat → Nat) (l : List Nat) :
    (∑ i : Fin l.length, f (l.get i)) = (l.map f).sum := by
  induction l with
  | nil => simp
  | cons a l ih =>
    simp only [List.length_cons, Fin.sum_univ_succ, List.get_cons_zero,
      List.get_cons_succ', List.map_cons, List.sum_cons]
    rw [ih]

theorem countP_eq_sum_get (p : Nat → Bool) (l : List Nat) :
    l.countP p = ∑ i : Fin l.length, if p (l.get i) then 1 else 0 := by
  induction l with
  | nil => simp
  | cons a l ih =>
    simp only [List.countP_cons, List.length_cons, Fin.sum_univ_succ,
      List.get_cons_zero, List.get_cons_succ']
    rw [ih]
    omega

theorem favorable_eq_card (A B : List Nat) :
    ProbabilityCalculator.favorable A B =
      (Finset.univ.filter
        (fun p : Fin A.length × Fin B.length => B.get p.2 < A.get p.1)).card := by
  unfold ProbabilityCalculator.favorable
  rw [← sum_map_get (fun a => B.countP (fun b => decide (b < a))) A]
  rw [Finset.card_filter, Fintype.sum_prod_type]
  refine Finset.sum_congr rfl (fun i _ => ?_)
  rw [countP_eq_sum_get]
  refine Finset.sum_congr rfl (fun j _ => ?_)
  simp

theorem countP_lt_gt_eq (a : Nat) (B : List Nat) :
    B.countP (fun b => decide (b < a)) + B.countP (fun b => decide (a < b)) +
      B.countP (fun b => decide (a = b)) = B.length := by
  induction B with
  | nil => simp
  | cons b B ih =>
    simp only [List.countP_cons, List.length_cons]
    rcases Nat.lt_trichotomy b a with h | h | h
    · simp [h, Nat.lt_asymm h, (Nat.ne_of_lt h).symm]
      omega
    · subst h
      simp
      omega
    · simp [h, Nat.lt_asymm h, Nat.ne_of_lt h]
      omega

theorem favorable_nil_right (B : List Nat) :
    ProbabilityCalculator.favorable B [] = 0 := by
  induction B <;> simp_all [ProbabilityCalculator.favorable]

theorem favorable_cons_left (a : Nat) (A B : List Nat) :
    ProbabilityCalculator.favorable (a :: A) B =
      B.countP (fun b => decide (b < a)) + ProbabilityCalculator.favorable A B := by
  simp [ProbabilityCalculator.favorable]

theorem favorable_cons_right (B : List Nat) (a : Nat) (A : List Nat) :
    ProbabilityCalculator.favorable B (a :: A) =
      B.countP (fun b => decide (a < b)) + ProbabilityCalculator.favorable B A := by
  induction B with
  | nil => simp [ProbabilityCalculator.favorable]
  | cons b B ih =>
    rw [favorable_cons_left b B (a :: A), favorable_cons_left b B A, ih]
    simp only [List.countP_cons]
    omega

theorem ties_cons (a : Nat) (A B : List Nat) :
    ties (a :: A) B = B.countP (fun b => decide (a = b)) + ties A B := by
  simp [ties]

theorem favorable_add_ties (A B : List Nat) :
    ProbabilityCalculator.favorable A B + ProbabilityCalculator.favorable B A +
      ties A B = A.length * B.length := by
  induction A with
  | nil => simp [ProbabilityCalculator.favorable, ties, favorable_nil_right]
  | cons a A ih =>
    rw [favorable_cons_left, favorable_cons_right, ties_cons, List.length_cons,
      Nat.succ_mul]
    have h := countP_lt_gt_eq a B
    omega

/-- C3: `winProbability(A, B)` equals the number of index pairs `(i, j)`
with `A[i] > B[j]` divided by `|A| * |B|` (ties counting for neither
side), and at `A = [2,2,4,4,9,9]`, `B = [1,1,6,6,8,8]` it equals `5/9`
(20 favorable pairs out of 36). -/
theorem calculate_eq_specWinProbability :
    (∀ A B : List Nat,
      ProbabilityCalculator.calculate A B = specWinProbability A B) ∧
    ProbabilityCalculator.calculate [2, 2, 4, 4, 9, 9] [1, 1, 6, 6, 8, 8] = 5 / 9 := by
  constructor
  · intro A B
    unfold ProbabilityCalculator.calculate specWinProbability
    rw [favorable_eq_card]
    rfl
  · have h1 : ProbabilityCalculator.favorable [2, 2, 4, 4, 9, 9] [1, 1, 6, 6, 8, 8] = 20 := by
      decide
    have h2 : ProbabilityCalculator.total [2, 2, 4, 4, 9, 9] [1, 1, 6, 6, 8, 8] = 36 := by
      decide
    rw [ProbabilityCalculator.calculate, h1, h2]
    norm_num

/-- C4: for every pair of non-empty dice configurations,
`winProbability(A, B) + winProbability(B, A) + tieFraction(A, B) = 1`
holds exactly. -/
theorem calculate_add_calculate_add_tieFraction (A B : List Nat)
    (hA : A ≠ []) (hB : B ≠ []) :
    ProbabilityCalculator.calculate A B + ProbabilityCalculator.calculate B A +
      tieFraction A B = 1 := by
  have hpos : 0 < A.length * B.length :=
    Nat.mul_pos (List.length_pos.mpr hA) (List.length_pos.mpr hB)
  have hN : (ProbabilityCalculator.total A B : ℚ) ≠ 0 := by
    have h0 : ProbabilityCalculator.total A B ≠ 0 := Nat.pos_iff_ne_zero.mp hpos
    exact_mod_cast h0
  have hcomm : ProbabilityCalculator.total B A = ProbabilityCalculator.total A B :=
    Nat.mul_comm _ _
  unfold ProbabilityCalculator.calculate tieFraction
  rw [hcomm, div_add_div_same, div_add_div_same, div_eq_one_iff_eq hN]
  have h : ProbabilityCalculator.favorable A B + ProbabilityCalculator.favorable B A +
      ties A B = ProbabilityCalculator.total A B := favorable_add_ties A B
  exact_mod_cast h

/-- Witness for C4 at the concrete pair `A = [1]`, `B = [2]`. -/
theorem calculate_add_calculate_add_tieFraction_witness :
    ([1] : List Nat) ≠ [] ∧ ([2] : List Nat) ≠ [] ∧
      ProbabilityCalculator.calculate [1] [2] + ProbabilityCalculator.calculate [2] [1] +
        tieFraction [1] [2] = 1 :=
  ⟨by decide, by decide,
    calculate_add_calculate_add_tieFraction [1] [2] (by decide) (by decide)⟩

set_option maxRecDepth 8000 in
/-- C5: contrary to the claim, `FairRandom.generateNumber` is NOT the exact
full-width modular reduction of the digest.  At the digest
`2 ^ 255 + 1` (hex `8000...0001`, a valid 64-hex-digit HMAC output value)
with `rangeSize = 6`, `parseInt` rounds the digest to the binary64 value
`2 ^ 255`, so the code returns `2`, while the exact reduction demanded by
the spec gives `3`. -/
theorem generateNumber_not_exact_reduction :
    FairRandom.generateNumber (2 ^ 255 + 1) 6 = 2 ∧ (2 ^ 255 + 1) % 6 = 3 ∧
      float64Round (2 ^ 255 + 1) = 2 ^ 255 := by
  decide

/-- C9: a resolved non-tie round increments exactly one side's score by
exactly one (never both, never neither), a tie increments neither, and
each side's score is monotonically non-decreasing, both per round and
across a whole session of rounds. -/
theorem resolve_score_invariants :
    (∀ u c s, u ≠ c →
      ((DiceGame.resolve u c s).user = s.user + 1 ∧
        (DiceGame.resolve u c s).comp = s.comp) ∨
      ((DiceGame.resolve u c s).user = s.user ∧
        (DiceGame.resolve u c s).comp = s.comp + 1)) ∧
    (∀ u s, DiceGame.resolve u u s = s) ∧
    (∀ u c s, s.user ≤ (DiceGame.resolve u c s).user ∧
      s.comp ≤ (DiceGame.resolve u c s).comp) ∧
    (∀ rounds s, s.user ≤ (DiceGame.runRounds rounds s).user ∧
      s.comp ≤ (DiceGame.runRounds rounds s).comp) := by
  have hmono : ∀ u c s, s.user ≤ (DiceGame.resolve u c s).user ∧
      s.comp ≤ (DiceGame.resolve u c s).comp := by
    intro u c s
    unfold DiceGame.resolve
    by_cases h1 : c < u
    · simp [h1]
    · by_cases h2 : u < c <;> simp [h1, h2]
  refine ⟨?_, ?_, hmono, ?_⟩
  · intro u c s hne
    unfold DiceGame.resolve
    by_cases h1 : c < u
    · exact Or.inl (by simp [h1])
    · have h2 : u < c := by omega
      exact Or.inr (by simp [h1, h2])
  · intro u s
    simp [DiceGame.resolve]
  · intro rounds
    induction rounds with
    | nil => intro s; exact ⟨Nat.le_refl _, Nat.le_refl _⟩
    | cons r rounds ih =>
      intro s
      have h1 := hmono r.1 r.2 s
      have h2 := ih (DiceGame.resolve r.1 r.2 s)
      unfold DiceGame.runRounds at h2 ⊢
      simp only [List.foldl_cons]
      omega

/-- Witness for C9 at `u = 3`, `c = 1`, initial scores `(0, 0)`. -/
theorem resolve_score_invariants_witness :
    (3 : Nat) ≠ 1 ∧
      (((DiceGame.resolve 3 1 ⟨0, 0⟩).user = 0 + 1 ∧
          (DiceGame.resolve 3 1 ⟨0, 0⟩).comp = 0) ∨
        ((DiceGame.resolve 3 1 ⟨0, 0⟩).user = 0 ∧
          (DiceGame.resolve 3 1 ⟨0, 0⟩).comp = 0 + 1)) :=
  ⟨by decide, resolve_score_invariants.1 3 1 ⟨0, 0⟩ (by decide)⟩

/-- C10: `HMACGenerator.generate` is deterministic — its result depends on
nothing but the `(key, input)` pair: for any digest primitive, any two
ambient program states and equal keys and inputs, the two invocations
return the same digest string. -/
theorem generate_deterministic :
    ∀ (hmacSha3_256 : List Nat → List Nat → String) (a1 a2 : Ambient)
      (k1 k2 i1 i2 : List Nat), k1 = k2 → i1 = i2 →
      HMACGenerator.generate hmacSha3_256 a1 k1 i1 =
        HMACGenerator.generate hmacSha3_256 a2 k2 i2 := by
  intro h a1 a2 k1 k2 i1 i2 hk hi
  rw [hk, hi]
  rfl

/-- Witness for C10 at a concrete digest primitive, two distinct ambient
states, and the key/input pair `([1], [2])`. -/
theorem generate_deterministic_witness :
    HMACGenerator.generate (fun _ _ => "d") ⟨[0], ⟨0, 0⟩⟩ [1] [2] =
      HMACGenerator.generate (fun _ _ => "d") ⟨[5], ⟨7, 9⟩⟩ [1] [2] :=
  generate_deterministic (fun _ _ => "d") ⟨[0], ⟨0, 0⟩⟩ ⟨[5], ⟨7, 9⟩⟩ [1] [1] [2] [2] rfl rfl

/-- C1: contrary to the claim, in every main-prompt interaction the only
events preceding the accepted user input are the prompt itself — no keyed
digest is ever displayed (no `showDigest` event exists in any trace), the
digest is computed (inside `FairRandom.generateNumber`) only after the
input is accepted, and the secret behind it is never revealed (no
`revealSecret` event exists in any trace). -/
theorem mainStep_no_commit_reveal :
    ∀ (input : String) (digest userRoll : Nat) (s : Scores),
      (∀ d, Ev.showDigest d ∉ (DiceGame.mainStep input digest userRoll s).trace) ∧
      (∀ x, Ev.revealSecret x ∉ (DiceGame.mainStep input digest userRoll s).trace) ∧
      (∃ rest, (DiceGame.mainStep input digest userRoll s).trace =
        Ev.promptMain :: Ev.inputAccepted input :: rest) := by
  intro input digest userRoll s
  unfold DiceGame.mainStep
  by_cases h1 : input = "X"
  · simp [h1]
  · by_cases h2 : input = "?" ∨ input = "help"
    · simp [h1, h2]
    · simp [h1, h2]
      constructor <;> intro y <;> split <;> try split
      all_goals simp

/-- C2: contrary to the claim, the round outcome is not
`(houseValue + userValue) mod 6` and the user's value is not an input the
user supplies — two rounds whose house and user draws have equal sums
modulo 6 resolve differently (computer win vs tie), so no combined
modular outcome determines the result. -/
theorem outcome_not_modular_combination :
    (DiceGame.mainStep "1" 5 3 ⟨0, 0⟩).scores = ⟨0, 1⟩ ∧
    (DiceGame.mainStep "1" 1 1 ⟨0, 0⟩).scores = ⟨0, 0⟩ ∧
    (5 + 3) % 6 = (1 + 1) % 6 ∧
    Ev.outCompWins ∈ (DiceGame.mainStep "1" 5 3 ⟨0, 0⟩).trace ∧
    Ev.outTie ∈ (DiceGame.mainStep "1" 1 1 ⟨0, 0⟩).trace ∧
    Ev.outComputerRoll 5 ∈ (DiceGame.mainStep "1" 5 3 ⟨0, 0⟩).trace ∧
    Ev.outUserRoll 3 ∈ (DiceGame.mainStep "1" 5 3 ⟨0, 0⟩).trace := by
  decide

/-- C7 counterexample: the unrecognized token `"zzz"` at the main prompt
is not re-prompted — it starts a round (control moves to the continue
prompt) and mutates the ScoreBoard. -/
theorem unrecognized_token_mutates_scoreboard :
    (DiceGame.mainStep "zzz" 1 3 ⟨0, 0⟩).scores = ⟨1, 0⟩ ∧
    (DiceGame.mainStep "zzz" 1 3 ⟨0, 0⟩).mode = Mode.toContinue := by
  decide

/-- C7 amended: at the main prompt the help tokens `?` and `help` re-issue
the prompt (after printing help) without mutating the ScoreBoard; every
other token except `X` is treated as a round request — control moves to
the continue prompt and the ScoreBoard is updated by the round's
resolution — rather than being re-prompted with a diagnostic; every
answer at the continue prompt is handled (continue or graceful end), so
no input crashes the process. -/
theorem input_handling_semantics :
    (∀ (input : String) (digest userRoll : Nat) (s : Scores),
      input = "?" ∨ input = "help" →
        (DiceGame.mainStep input digest userRoll s).scores = s ∧
        (DiceGame.mainStep input digest userRoll s).mode = Mode.toMain) ∧
    (∀ (input : String) (digest userRoll : Nat) (s : Scores),
      input ≠ "X" → input ≠ "?" → input ≠ "help" →
        (DiceGame.mainStep input digest userRoll s).mode = Mode.toContinue ∧
        (DiceGame.mainStep input digest userRoll s).scores =
          DiceGame.resolve userRoll (FairRandom.generateNumber digest 6) s) ∧
    (∀ answer : String, (DiceGame.continueStep answer).2 = Mode.toMain ∨
      (DiceGame.continueStep answer).2 = Mode.ended) := by
  refine ⟨?_, ?_, ?_⟩
  · intro input digest userRoll s h
    have hx : input ≠ "X" := by rcases h with h | h <;> simp [h]
    unfold DiceGame.mainStep
    simp [hx, h]
  · intro input digest userRoll s h1 h2 h3
    unfold DiceGame.mainStep
    simp [h1, h2, h3]
  · intro answer
    unfold DiceGame.continueStep
    by_cases h : jsToUpper answer = "Y" <;> simp [h]

/-- Witness for C7's amended theorem: help token `?` with scores `(4, 2)`,
and the round-request clause at token `"1"`. -/
theorem input_handling_semantics_witness :
    ((DiceGame.mainStep "?" 0 0 ⟨4, 2⟩).scores = ⟨4, 2⟩ ∧
      (DiceGame.mainStep "?" 0 0 ⟨4, 2⟩).mode = Mode.toMain) ∧
    ((DiceGame.mainStep "1" 0 3 ⟨4, 2⟩).mode = Mode.toContinue ∧
      (DiceGame.mainStep "1" 0 3 ⟨4, 2⟩).scores =
        DiceGame.resolve 3 (FairRandom.generateNumber 0 6) ⟨4, 2⟩) :=
  ⟨input_handling_semantics.1 "?" 0 0 ⟨4, 2⟩ (Or.inl rfl),
    input_handling_semantics.2.1 "1" 0 3 ⟨4, 2⟩ (by decide) (by decide) (by decide)⟩

/-- C8 counterexample: the lowercase quit token `"x"` at the main prompt
does not terminate the game — it is treated as a round request, and no
graceful close happens in that interaction. -/
theorem lowercase_quit_not_recognized :
    (DiceGame.mainStep "x" 0 0 ⟨0, 0⟩).mode = Mode.toContinue ∧
    Ev.closeInterface 0 ∉ (DiceGame.mainStep "x" 0 0 ⟨0, 0⟩).trace := by
  decide

/-- C8 amended: the quit token `X` is case-sensitive at the main prompt;
entering `X` there ends the game with exit code 0 (graceful close) and no
ScoreBoard mutation, while lowercase `x` instead starts a round; at the
continue prompt any answer other than case-insensitive `Y` ends the game
with exit code 0. -/
theorem quit_token_semantics :
    (∀ (digest userRoll : Nat) (s : Scores),
      (DiceGame.mainStep "X" digest userRoll s).mode = Mode.ended ∧
      (DiceGame.mainStep "X" digest userRoll s).scores = s ∧
      Ev.closeInterface 0 ∈ (DiceGame.mainStep "X" digest userRoll s).trace) ∧
    (∀ (digest userRoll : Nat) (s : Scores),
      (DiceGame.mainStep "x" digest userRoll s).mode = Mode.toContinue) ∧
    (∀ answer : String, jsToUpper answer ≠ "Y" →
      (DiceGame.continueStep answer).2 = Mode.ended ∧
      Ev.closeInterface 0 ∈ (DiceGame.continueStep answer).1) := by
  refine ⟨?_, ?_, ?_⟩
  · intro digest userRoll s
    unfold DiceGame.mainStep
    simp
  · intro digest userRoll s
    unfold DiceGame.mainStep
    simp
  · intro answer h
    unfold DiceGame.continueStep
    simp [h]

/-- Witness for C8's amended theorem: quitting at answer `"n"` of the
continue prompt. -/
theorem quit_token_semantics_witness :
    (DiceGame.continueStep "n").2 = Mode.ended ∧
      Ev.closeInterface 0 ∈ (DiceGame.continueStep "n").1 :=
  quit_token_semantics.2.2 "n" (by decide)

theorem validateTokens_error_elim (config : String) (nums : List String)
    (e : StartupError) (h : validateTokens config nums = Except.error e) :
    e.code = 1 ∧ ∃ num ∈ nums, tokenRejected num = true ∧
      e.msg = invalidNumberMsg num config := by
  induction nums with
  | nil => simp [validateTokens] at h
  | cons num rest ih =>
    unfold validateTokens at h
    cases hp : jsParseInt10 num with
    | none =>
      rw [hp] at h
      simp only [Except.error.injEq] at h
      subst h
      exact ⟨rfl, num, by simp, by simp [tokenRejected, hp], rfl⟩
    | some p =>
      rw [hp] at h
      dsimp only at h
      by_cases hle : p ≤ 0
      · rw [if_pos hle] at h
        simp only [Except.error.injEq] at h
        subst h
        exact ⟨rfl, num, by simp, by simp [tokenRejected, hp, hle], rfl⟩
      · rw [if_neg hle] at h
        cases hrest : validateTokens config rest with
        | error e2 =>
          rw [hrest] at h
          simp only [Except.map, Except.error.injEq] at h
          subst h
          obtain ⟨hc, num2, hmem, hrej, hmsg⟩ := ih hrest
          exact ⟨hc, num2, by simp [hmem], hrej, hmsg⟩
        | ok ns =>
          rw [hrest] at h
          simp [Except.map] at h

theorem validateTokens_ok_of_accepted (config : String) (nums : List String)
    (h : ∀ num ∈ nums, tokenRejected num = false) :
    ∃ ns, validateTokens config nums = Except.ok ns := by
  induction nums with
  | nil => exact ⟨[], rfl⟩
  | cons num rest ih =>
    have hnum : tokenRejected num = false := h num (by simp)
    obtain ⟨ns, hns⟩ := ih (fun x hx => h x (by simp [hx]))
    unfold validateTokens
    unfold tokenRejected at hnum
    cases hp : jsParseInt10 num with
    | none => rw [hp] at hnum; simp at hnum
    | some p =>
      rw [hp] at hnum
      simp only [decide_eq_false_iff_not] at hnum
      dsimp only
      rw [if_neg hnum, hns]
      exact ⟨p :: ns, rfl⟩

theorem validateAll_error_elim (args : List String) (e : StartupError)
    (h : validateAll args = Except.error e) :
    e.code = 1 ∧ ∃ config ∈ args, ∃ num ∈ splitOnComma config,
      tokenRejected num = true ∧ e.msg = invalidNumberMsg num config := by
  induction args with
  | nil => simp [validateAll] at h
  | cons config rest ih =>
    unfold validateAll at h
    cases hc : validateConfig config with
    | error e2 =>
      rw [hc] at h
      dsimp only at h
      simp only [Except.error.injEq] at h
      subst h
      obtain ⟨hcode, num, hmem, hrej, hmsg⟩ :=
        validateTokens_error_elim config (splitOnComma config) _ hc
      exact ⟨hcode, config, by simp, num, hmem, hrej, hmsg⟩
    | ok ns =>
      rw [hc] at h
      dsimp only at h
      cases hr : validateAll rest with
      | error e2 =>
        rw [hr] at h
        simp only [Except.error.injEq] at h
        subst h
        obtain ⟨hcode, config2, hmem, rest2⟩ := ih hr
        exact ⟨hcode, config2, by simp [hmem], rest2⟩
      | ok tl =>
        rw [hr] at h
        simp at h

theorem validateAll_ok_of_accepted (args : List String)
    (h : ∀ config ∈ args, ∀ num ∈ splitOnComma config, tokenRejected num = false) :
    ∃ cfgs, validateAll args = Except.ok cfgs := by
  induction args with
  | nil => exact ⟨[], rfl⟩
  | cons config rest ih =>
    obtain ⟨ns, hns⟩ := validateTokens_ok_of_accepted config (splitOnComma config)
      (h config (by simp))
    obtain ⟨cfgs, hcfgs⟩ := ih (fun c hc => h c (by simp [hc]))
    unfold validateAll validateConfig
    rw [hns]
    dsimp only
    rw [hcfgs]
    exact ⟨ns :: cfgs, rfl⟩

theorem validateTokens_ok_elim (config : String) (nums : List String)
    (ns : List Int) (h : validateTokens config nums = Except.ok ns) :
    ∀ num ∈ nums, tokenRejected num = false := by
  induction nums generalizing ns with
  | nil => simp
  | cons num rest ih =>
    intro x hx
    unfold validateTokens at h
    cases hp : jsParseInt10 num with
    | none => rw [hp] at h; simp at h
    | some p =>
      rw [hp] at h
      dsimp only at h
      by_cases hle : p ≤ 0
      · rw [if_pos hle] at h; simp at h
      · rw [if_neg hle] at h
        cases hrest : validateTokens config rest with
        | error e2 => rw [hrest] at h; simp [Except.map] at h
        | ok ns2 =>
          rcases List.mem_cons.mp hx with hx1 | hx2
          · subst hx1
            simp [tokenRejected, hp, hle]
          · exact ih ns2 hrest x hx2

theorem validateAll_ok_elim (args : List String) (cfgs : List (List Int))
    (h : validateAll args = Except.ok cfgs) :
    ∀ config ∈ args, ∀ num ∈ splitOnComma config, tokenRejected num = false := by
  induction args generalizing cfgs with
  | nil => simp
  | cons config rest ih =>
    intro c hc
    unfold validateAll at h
    cases hcfg : validateConfig config with
    | error e2 => rw [hcfg] at h; simp at h
    | ok ns =>
      rw [hcfg] at h
      dsimp only at h
      cases hr : validateAll rest with
      | error e2 => rw [hr] at h; simp at h
      | ok tl =>
        rcases List.mem_cons.mp hc with hc1 | hc2
        · subst hc1
          exact validateTokens_ok_elim c (splitOnComma c) ns hcfg
        · exact ih tl hr c hc2

/-- C6 counterexample: the token `"3x"` is not numeric, yet startup
validation accepts the configuration `"3x"` (as the single face value 3)
instead of aborting — `parseInt` stops at the first non-digit. -/
theorem non_numeric_token_accepted :
    tokenIsNumeric "3x" = false ∧ parseArgs ["3x"] = Except.ok [[3]] :=
  ⟨rfl, rfl⟩

/-- C6 amended: with no arguments, startup aborts with exit code 1 and a
descriptive message; every startup abort has a non-zero exit code and a
message that is either the missing-argument message or the invalid-number
message naming the offending token and its configuration; for a non-empty
argument list, startup aborts exactly when some token's `parseInt` value
is `NaN` or non-positive (a token with a positive numeric prefix, such as
`"3x"`, is accepted with the prefix's value); the invalid-number message
textually contains the offending token and the configuration.  No game
state exists on the error path: configurations are only produced on the
`ok` path. -/
theorem parseArgs_startup_validation :
    parseArgs [] = Except.error ⟨missingArgsMsg, 1⟩ ∧
    (∀ args e, parseArgs args = Except.error e → e.code ≠ 0 ∧
      (e.msg = missingArgsMsg ∨ ∃ config ∈ args, ∃ num ∈ splitOnComma config,
        tokenRejected num = true ∧ e.msg = invalidNumberMsg num config)) ∧
    (∀ args, args ≠ [] →
      ((∃ e, parseArgs args = Except.error e) ↔
        ∃ config ∈ args, ∃ num ∈ splitOnComma config, tokenRejected num = true)) ∧
    (∃ pre mid post, ∀ num config,
      invalidNumberMsg num config = pre ++ num ++ mid ++ config ++ post) := by
  have hlen : ∀ args : List String, args ≠ [] → ¬args.length < 1 := by
    intro args h
    cases args with
    | nil => exact absurd rfl h
    | cons a l => simp
  refine ⟨rfl, ?_, ?_, ?_⟩
  · intro args e h
    unfold parseArgs at h
    by_cases ha : args.length < 1
    · rw [if_pos ha] at h
      simp only [Except.error.injEq] at h
      subst h
      exact ⟨by simp, Or.inl rfl⟩
    · rw [if_neg ha] at h
      obtain ⟨hcode, rest⟩ := validateAll_error_elim args e h
      exact ⟨by omega, Or.inr rest⟩
  · intro args hne
    constructor
    · rintro ⟨e, h⟩
      unfold parseArgs at h
      rw [if_neg (hlen args hne)] at h
      obtain ⟨_, rest⟩ := validateAll_error_elim args e h
      obtain ⟨config, hc, num, hn, hrej, _⟩ := rest
      exact ⟨config, hc, num, hn, hrej⟩
    · rintro ⟨config, hc, num, hn, hrej⟩
      unfold parseArgs
      rw [if_neg (hlen args hne)]
      cases hall : validateAll args with
      | error e => exact ⟨e, rfl⟩
      | ok cfgs =>
        have := validateAll_ok_elim args cfgs hall config hc num hn
        rw [this] at hrej
        exact absurd hrej (by simp)
  · exact ⟨"Error: Invalid number \"", "\" in configuration ",
      ". All numbers must be positive integers.", fun num config => rfl⟩

/-- Witness for C6's amended theorem at the argument list `["0"]`: the
zero token aborts startup, and the abort carries exit code 1 and the
message naming token `"0"` in configuration `"0"`. -/
theorem parseArgs_startup_validation_witness :
    (∃ e, parseArgs ["0"] = Except.error e) ∧
      ((⟨invalidNumberMsg "0" "0", 1⟩ : StartupError).code ≠ 0 ∧
        ((⟨invalidNumberMsg "0" "0", 1⟩ : StartupError).msg = missingArgsMsg ∨
          ∃ config ∈ (["0"] : List String), ∃ num ∈ splitOnComma config,
            tokenRejected num = true ∧
              (⟨invalidNumberMsg "0" "0", 1⟩ : StartupError).msg =
                invalidNumberMsg num config)) :=
  ⟨(parseArgs_startup_validation.2.2.1 ["0"] (by decide)).mpr
      ⟨"0", by decide, "0", by decide, by decide⟩,
    parseArgs_startup_validation.2.1 ["0"] ⟨invalidNumberMsg "0" "0", 1⟩ rfl⟩
